import Mathlib

/-!
Verification of the control core of the `efficient-compression` repository:
the checkpoint/resume handler (`CheckpointHandler.py`), the DRR gradient
modification (`DrrProcedure.py`) and the byte-level Wikipedia dataset
utilities (`Wiki40BDataset.py`), shallowly embedded in Lean.

Python floats (wall-clock timestamps, metric values, configuration values)
are modelled as rationals; byte strings as lists of naturals; the pickle
file system as an association list from path to the last record written.
-/

set_option autoImplicit false

namespace CompressingTransformers

/-- Training-metric logs: a `dict` from metric name to the list of recorded
scalar values (`CheckpointHandler.py`, the `logs` dictionary). -/
abbrev Logs := List (String × List ℚ)

/-- `initialize_logs` (CheckpointHandler.py, lines 87-97): the dictionary with
the seven known metric keys, each mapped to an empty list. -/
def initialize_logs : Logs :=
  [("train_loss", []), ("train_loss_X", []), ("train_loss_X_epoch", []),
   ("runtime_per_250_batches", []), ("l0_norm", []), ("l0_norm_X", []),
   ("l0_norm_X_epoch", [])]

/-- The fields of `CheckpointHandler` (CheckpointHandler.py, lines 17-25).
Timestamps returned by `time.time()` are modelled as rationals. -/
structure CheckpointHandler where
  experiment_name : String
  checkpoint_dir : String
  epoch : ℕ
  chunk : ℕ
  start_time : ℚ
  last_check_time : ℚ
  checkpoint_every : ℚ
  max_runtime : ℚ
deriving DecidableEq

/-- `CheckpointHandler.__init__` (lines 8-25): `now` stands for the value of
the `time.time()` call at construction; `checkpoint_dir` is the resolved
directory (the `or`-default of line 18 is resolved by the caller). -/
def CheckpointHandler.init (experiment_name : String)
    (checkpoint_every max_runtime : ℚ) (checkpoint_dir : String) (now : ℚ) :
    CheckpointHandler :=
  { experiment_name := experiment_name, checkpoint_dir := checkpoint_dir,
    epoch := 0, chunk := 0, start_time := now, last_check_time := now,
    checkpoint_every := checkpoint_every, max_runtime := max_runtime }

/-- `self.checkpoint_path` (line 19): `os.path.join(checkpoint_dir,
experiment_name + "_checkpoint.pkl")`. -/
def CheckpointHandler.checkpoint_path (h : CheckpointHandler) : String :=
  h.checkpoint_dir ++ "/" ++ h.experiment_name ++ "_checkpoint.pkl"

/-- The record pickled by `save_checkpoint` (lines 35-41). `M` and `O` are the
opaque model/optimizer state blobs. -/
structure CheckpointRecord (M O : Type) where
  epoch : ℕ
  chunk : ℕ
  model_state_dict : M
  optimizer_state_dict : O
  logs : Logs
deriving DecidableEq

/-- The file system as seen through `pickle.dump` / `pickle.load`: an
association list from file path to the record stored there; a later write to
the same path shadows the earlier one (single-slot overwrite). -/
abbrev FileSystem (M O : Type) := List (String × CheckpointRecord M O)

/-- `CheckpointHandler.save_checkpoint` (lines 27-43): assembles the record
from the handler's current position and the given blobs and writes it to
`checkpoint_path`. `model_state` and `optimizer_state` stand for the values of
`ddp_model.module.state_dict()` and `optimizer.state_dict()`. -/
def CheckpointHandler.save_checkpoint {M O : Type} (h : CheckpointHandler)
    (model_state : M) (optimizer_state : O) (logs : Logs)
    (fs : FileSystem M O) : FileSystem M O :=
  (h.checkpoint_path,
    { epoch := h.epoch, chunk := h.chunk, model_state_dict := model_state,
      optimizer_state_dict := optimizer_state, logs := logs }) :: fs

/-- `CheckpointHandler.load_checkpoint` (lines 45-61): when the checkpoint
path exists, reads the record, sets the handler's `epoch`/`chunk` from it and
returns the three stored components; otherwise returns
`(None, None, initialize_logs())` and leaves the handler unchanged. -/
def CheckpointHandler.load_checkpoint {M O : Type} (h : CheckpointHandler)
    (fs : FileSystem M O) : (Option M × Option O × Logs) × CheckpointHandler :=
  match fs.lookup h.checkpoint_path with
  | some checkpoint =>
      ((some checkpoint.model_state_dict, some checkpoint.optimizer_state_dict,
        checkpoint.logs),
       { h with epoch := checkpoint.epoch, chunk := checkpoint.chunk })
  | none => ((none, none, initialize_logs), h)

/-- `CheckpointHandler.update` (lines 63-71). -/
def CheckpointHandler.update (h : CheckpointHandler) (epoch chunk : ℕ) :
    CheckpointHandler :=
  { h with epoch := epoch, chunk := chunk }

/-- `CheckpointHandler.should_checkpoint` (lines 73-84): `now` is the value of
the `time.time()` call of this invocation; the pair is the returned boolean
together with the handler after the call. -/
def CheckpointHandler.should_checkpoint (h : CheckpointHandler) (now : ℚ) :
    Bool × CheckpointHandler :=
  if h.checkpoint_every < now - h.last_check_time then
    if h.max_runtime < now - h.start_time then
      (true, { h with last_check_time := now })
    else
      (false, { h with last_check_time := now })
  else (false, h)

/-- A run of `should_checkpoint` calls at the given sequence of `time.time()`
values, threading the handler state; true when some call returns true. -/
def pollRun (h : CheckpointHandler) : List ℚ → Bool
  | [] => false
  | t :: ts => ((h.should_checkpoint t).fst || pollRun (h.should_checkpoint t).snd ts : Bool)

/-- A sequence of `update(epoch, chunk)` calls, applied in order. -/
def applyUpdates (h : CheckpointHandler) (us : List (ℕ × ℕ)) : CheckpointHandler :=
  us.foldl (fun h u => h.update u.fst u.snd) h

/-! Model of src/compressing_transformers/src/DistributedOptimizationProcedures/DrrProcedure.py -/

/-- A model parameter as seen by `modify_grad`: its value tensor
(`param.data`) and its optional gradient tensor (`param.grad`, `None` when no
gradient is present). Tensors are modelled as lists of reals. -/
structure TorchParam where
  data : List ℝ
  grad : Option (List ℝ)

/-- `DrrTrainer.modify_grad` (DrrProcedure.py, lines 39-48): when
`torch.is_tensor(param.grad)` holds, performs
`param.grad += alpha * beta * torch.sign(param.data) *
torch.exp(-beta * torch.abs(param.data))` elementwise; otherwise the
parameter is left untouched. -/
noncomputable def modify_grad (alpha beta : ℝ) (param : TorchParam) : TorchParam :=
  match param.grad with
  | some g =>
      { param with grad := some (List.zipWith
          (fun gi wi => gi + alpha * beta * Real.sign wi * Real.exp (-(beta * |wi|)))
          g param.data) }
  | none => param

/-- `DrrTrainer.modify_grads` (DrrProcedure.py, lines 31-37): applies
`modify_grad` to every parameter of `self.ddp_model.parameters()`. -/
noncomputable def modify_grads (alpha beta : ℝ) (params : List TorchParam) :
    List TorchParam :=
  params.map (modify_grad alpha beta)

/-- A Python runtime value, as far as the `DrrTrainer` constructor inspects
one: a float (modelled as a rational), an int, a string, or `None`. -/
inductive PyVal where
  | pyFloat (q : ℚ)
  | pyInt (n : ℤ)
  | pyStr (s : String)
  | pyNone
deriving DecidableEq

/-- Modelled from the spec: `ProcedureTrainer.__init__` (BaseProcedure.py is
not under src/) — per sections 2 and 4.3 of the spec the parent class merely
receives and stores the configuration (`self.args`) and the external
collaborators (model, optimizer), performing no hyperparameter validation;
only its configuration store is modelled. The `alpha` and `beta` fields are
the ones set by `DrrTrainer.__init__` itself (DrrProcedure.py, lines 27-28). -/
structure DrrTrainer where
  args : List (String × PyVal)
  alpha : PyVal
  beta : PyVal
deriving DecidableEq

/-- `DrrTrainer.__init__` (DrrProcedure.py, lines 18-28): after the parent
stores `args`, evaluates `assert isinstance(self.args["beta"], float)` — a
missing key raises `KeyError`, a non-float raises `AssertionError` — then
assigns `self.alpha = self.args["alpha"]` (KeyError when missing, otherwise
unvalidated) and `self.beta = self.args["beta"]`. Raising is modelled as
`Except.error`. -/
def DrrTrainer.init (args : List (String × PyVal)) : Except String DrrTrainer :=
  match args.lookup "beta" with
  | none => Except.error "KeyError: beta"
  | some b =>
    match b with
    | PyVal.pyFloat _ =>
      match args.lookup "alpha" with
      | none => Except.error "KeyError: alpha"
      | some a => Except.ok { args := args, alpha := a, beta := b }
    | _ => Except.error "beta must be a float"

/-! Model of src/compressing_transformers/src/Datasets/Wiki40BDataset.py -/

/-- `ByteWikipediaDataset` (Wiki40BDataset.py, lines 19-50): `data` is the
list of stored byte-string chunks (bytes as naturals), `split` the split
name. -/
structure ByteWikipediaDataset where
  data : List (List ℕ)
  split : String
deriving DecidableEq

/-- `ByteWikipediaDataset.__getitem__` (lines 40-50): `np.frombuffer` of the
stored bytes followed by `torch.from_numpy(...).long()` yields exactly the
chunk's byte values; modelled as the list of bytes. An out-of-range index is
`none`. -/
def ByteWikipediaDataset.getitem (ds : ByteWikipediaDataset) (idx : ℕ) :
    Option (List ℕ) :=
  ds.data.get? idx

/-- `WikipediaDatasets` (lines 53-72): the three splits plus the sequence
length. -/
structure WikipediaDatasets where
  train : ByteWikipediaDataset
  validation : ByteWikipediaDataset
  test : ByteWikipediaDataset
  sequence_length : ℕ
deriving DecidableEq

/-- The inner `while len(current_chunk) >= sequence_length` loop of
`create_and_save_dataset` (lines 110-112), written with an explicit fuel
argument (one unit per iteration; each iteration consumes `L ≥ 1` bytes, so
`b.length` fuel always suffices): splits off `sequence_length`-prefixes and
returns them together with the remainder. When `L = 0` the source loop would
not terminate; the model stops, which no claim exercises. -/
def splitChunksFuel : ℕ → ℕ → List ℕ → List (List ℕ) × List ℕ
  | 0, _, b => ([], b)
  | fuel + 1, L, b =>
    if 0 < L ∧ L ≤ b.length then
      let r := splitChunksFuel fuel L (b.drop L)
      (b.take L :: r.fst, r.snd)
    else ([], b)

/-- The `while` loop of lines 110-112 with adequate fuel. -/
def splitChunks (L : ℕ) (b : List ℕ) : List (List ℕ) × List ℕ :=
  splitChunksFuel b.length L b

/-- One iteration of the `for example in data` loop (lines 105-113): append
the example's bytes to `current_chunk`, then split off all full chunks. The
state is `(processed chunks so far, current_chunk)`. -/
def processStep (L : ℕ) (st : List (List ℕ) × List ℕ) (text : List ℕ) :
    List (List ℕ) × List ℕ :=
  let cur := st.snd ++ text
  let r := splitChunks L cur
  (st.fst ++ r.fst, r.snd)

/-- The per-split body of `create_and_save_dataset` (lines 102-119): fold the
example loop over the split's byte-encoded texts, then handle the last chunk
(lines 116-119): if `current_chunk` is nonempty, right-pad it with zero bytes
up to `sequence_length` when short, and append `current_chunk[:sequence_length]`. -/
def processSplit (L : ℕ) (texts : List (List ℕ)) : List (List ℕ) :=
  let st := texts.foldl (processStep L) ([], [])
  if st.snd = [] then st.fst
  else st.fst ++
    [(if st.snd.length < L then
        st.snd ++ List.replicate (L - st.snd.length) 0
      else st.snd).take L]

/-- `WikipediaDatasets.create_and_save_dataset` (lines 74-131) with the
external `tfds` loading abstracted into the three streams of byte-encoded
example texts (`text.encode('utf-8')` per example); builds the three splits
by the chunking loop. The `torch.save` side effect is not modelled. -/
def create_and_save_dataset (sequence_length : ℕ)
    (train_texts validation_texts test_texts : List (List ℕ)) :
    WikipediaDatasets :=
  { train := { data := processSplit sequence_length train_texts, split := "train" },
    validation := { data := processSplit sequence_length validation_texts,
                    split := "validation" },
    test := { data := processSplit sequence_length test_texts, split := "test" },
    sequence_length := sequence_length }

/-- `WikipediaDatasets.get_subset` (lines 164-192): reads
`len(dataset.data[0])` (IndexError on an empty dataset), evaluates the three
asserts in order (`%` by zero raises ZeroDivisionError first), then returns a
deep copy of the dataset whose `data` is `data[start_chunk:end_chunk]`. -/
def get_subset (start_token end_token : ℕ) (dataset : ByteWikipediaDataset) :
    Except String ByteWikipediaDataset :=
  match dataset.data with
  | [] => Except.error "IndexError: list index out of range"
  | c0 :: _ =>
    let sequence_length := c0.length
    if sequence_length = 0 then
      Except.error "ZeroDivisionError: integer division or modulo by zero"
    else if start_token % sequence_length = 0 then
      if end_token % sequence_length = 0 then
        if start_token < end_token then
          Except.ok
            { data := (dataset.data.drop (start_token / sequence_length)).take
                (end_token / sequence_length - start_token / sequence_length),
              split := dataset.split }
        else Except.error "Start token must be smaller than end token"
      else
        Except.error ("End token must be a multiple of the sequence length "
          ++ toString sequence_length)
    else
      Except.error ("Start token must be a multiple of the sequence length "
        ++ toString sequence_length)

/-- The object heap relevant to `get_subset` (lines 183-192), datasets
addressed by index: `get_subset` reads the argument object, `copy.deepcopy`s
it, reassigns only the fresh copy's `data` and returns the fresh object —
modelled as allocation of the result at the end of the heap, the argument
object untouched. -/
def get_subset_heap (heap : List ByteWikipediaDataset) (i : ℕ)
    (start_token end_token : ℕ) :
    Except String (List ByteWikipediaDataset × ℕ) :=
  match heap.get? i with
  | none => Except.error "NameError: invalid dataset reference"
  | some ds =>
    match get_subset start_token end_token ds with
    | Except.error msg => Except.error msg
    | Except.ok subset => Except.ok (heap ++ [subset], heap.length)

/-! Helper lemmas about `should_checkpoint` and `pollRun`. -/

theorem should_checkpoint_snd (h : CheckpointHandler) (t : ℚ) :
    (h.should_checkpoint t).snd =
      { h with last_check_time :=
          if h.checkpoint_every < t - h.last_check_time then t
          else h.last_check_time } := by
  by_cases h1 : h.checkpoint_every < t - h.last_check_time
  · by_cases h2 : h.max_runtime < t - h.start_time <;>
      simp [CheckpointHandler.should_checkpoint, h1, h2]
  · simp [CheckpointHandler.should_checkpoint, h1]

theorem should_checkpoint_fst (h : CheckpointHandler) (t : ℚ) :
    (h.should_checkpoint t).fst =
      (decide (h.checkpoint_every < t - h.last_check_time) &&
       decide (h.max_runtime < t - h.start_time)) := by
  by_cases h1 : h.checkpoint_every < t - h.last_check_time
  · by_cases h2 : h.max_runtime < t - h.start_time <;>
      simp [CheckpointHandler.should_checkpoint, h1, h2]
  · simp [CheckpointHandler.should_checkpoint, h1]

theorem pollRun_true_exists : ∀ (ts : List ℚ) (h : CheckpointHandler),
    pollRun h ts = true → ∃ t ∈ ts, h.max_runtime < t - h.start_time := by
  intro ts
  induction ts with
  | nil => intro h hrun; simp [pollRun] at hrun
  | cons u ts ih =>
    intro h hrun
    rw [pollRun, Bool.or_eq_true] at hrun
    rcases hrun with hf | hrest
    · refine ⟨u, List.mem_cons_self u ts, ?_⟩
      rw [should_checkpoint_fst, Bool.and_eq_true, decide_eq_true_eq,
        decide_eq_true_eq] at hf
      exact hf.2
    · obtain ⟨t, hmem, hlt⟩ := ih (h.should_checkpoint u).snd hrest
      refine ⟨t, List.mem_cons_of_mem u hmem, ?_⟩
      rw [should_checkpoint_snd] at hlt
      exact hlt

theorem pollRun_true_of_late : ∀ (ts : List ℚ) (h : CheckpointHandler),
    h.last_check_time ≤ h.start_time + h.max_runtime →
    0 ≤ h.checkpoint_every →
    ∀ t ∈ ts, h.start_time + h.max_runtime + h.checkpoint_every < t →
    pollRun h ts = true := by
  intro ts
  induction ts with
  | nil => intro h _ _ t hmem _; cases hmem
  | cons u ts ih =>
    intro h hinv hev t hmem hlate
    rw [pollRun, Bool.or_eq_true]
    rcases List.mem_cons.mp hmem with rfl | hmem'
    · left
      have h1 : h.checkpoint_every < t - h.last_check_time := by linarith
      have h2 : h.max_runtime < t - h.start_time := by linarith
      rw [should_checkpoint_fst]
      simp [decide_eq_true h1, decide_eq_true h2]
    · by_cases hf : (h.should_checkpoint u).fst = true
      · exact Or.inl hf
      · right
        have hf' : (h.should_checkpoint u).fst = false :=
          Bool.eq_false_iff.mpr hf
        refine ih (h.should_checkpoint u).snd ?_ ?_ t hmem' ?_
        · rw [should_checkpoint_snd]
          by_cases hu : h.checkpoint_every < u - h.last_check_time
          · have hmax : ¬ h.max_runtime < u - h.start_time := by
              intro hmax
              rw [should_checkpoint_fst] at hf'
              simp [decide_eq_true hu, decide_eq_true hmax] at hf'
            simp only [hu, if_true]
            simp only [not_lt] at hmax
            linarith
          · simpa [hu] using hinv
        · rw [should_checkpoint_snd]; exact hev
        · rw [should_checkpoint_snd]; exact hlate

/-- C2 (amended): safety — whenever a run of `should_checkpoint` calls
returns true, some call's wall-clock time exceeds construction time by more
than `max_runtime`, so true is never returned before `max_runtime` seconds
have elapsed; liveness — started from a freshly constructed state
(`last_check_time = start_time`, bounded by `start_time + max_runtime`), any
run containing a call made more than `max_runtime + checkpoint_every` seconds
after construction returns true, hence continuous polling at interval
`d ≤ checkpoint_every` yields true within `max_runtime + checkpoint_every + d
≤ max_runtime + 2 * checkpoint_every` seconds of construction. The bound
`max_runtime + checkpoint_every` claimed for polling at interval exactly
`checkpoint_every` does not hold (see the counterexample). -/
theorem should_checkpoint_timing (h : CheckpointHandler)
    (hinv : h.last_check_time ≤ h.start_time + h.max_runtime)
    (hev : 0 ≤ h.checkpoint_every) :
    (∀ ts, pollRun h ts = true → ∃ t ∈ ts, h.max_runtime < t - h.start_time) ∧
    (∀ ts t, t ∈ ts →
      h.start_time + h.max_runtime + h.checkpoint_every < t →
      pollRun h ts = true) := by
  constructor
  · intro ts hrun
    exact pollRun_true_exists ts h hrun
  · intro ts t hmem hlate
    exact pollRun_true_of_late ts h hinv hev t hmem hlate

/-- C2 witness: a freshly constructed handler with `checkpoint_every = 2`,
`max_runtime = 4`, polled once 7 seconds after construction, returns true. -/
theorem should_checkpoint_timing_witness :
    pollRun (CheckpointHandler.init "exp" 2 4 "ckpt" 0) [7] = true :=
  (should_checkpoint_timing (CheckpointHandler.init "exp" 2 4 "ckpt" 0)
      (by norm_num [CheckpointHandler.init])
      (by norm_num [CheckpointHandler.init])).2 [7] 7 (by simp)
      (by norm_num [CheckpointHandler.init])

/-- C2 counterexample: with `checkpoint_every = 2` and `max_runtime = 4`,
polling a freshly constructed handler at interval exactly `checkpoint_every`
(at times 2, 4 and 6 seconds after construction, so through
`max_runtime + checkpoint_every = 6` seconds) never returns true: the strict
interval gate makes the call at time 6 skip the runtime check. -/
theorem should_checkpoint_timing_counterexample :
    pollRun (CheckpointHandler.init "exp" 2 4 "ckpt" 0) [2, 4, 6] = false ∧
    (2 : ℚ) - 0 ≤ 2 ∧ (4 : ℚ) - 2 ≤ 2 ∧ (6 : ℚ) - 4 ≤ 2 ∧
    (6 : ℚ) = 0 + 4 + 2 := by
  refine ⟨?_, by norm_num, by norm_num, by norm_num, by norm_num⟩
  norm_num [pollRun, CheckpointHandler.should_checkpoint, CheckpointHandler.init]

/-- C8: `should_checkpoint` never modifies `start_time` (nor the experiment
name, directory, position counters, or the configured intervals);
`last_check_time` becomes the current time exactly when more than
`checkpoint_every` seconds have elapsed since `last_check_time`, and when the
interval has not elapsed the call returns false and leaves the whole handler
unchanged. -/
theorem should_checkpoint_state_footprint (h : CheckpointHandler) (now : ℚ) :
    (h.should_checkpoint now).snd.start_time = h.start_time ∧
    (h.should_checkpoint now).snd.experiment_name = h.experiment_name ∧
    (h.should_checkpoint now).snd.checkpoint_dir = h.checkpoint_dir ∧
    (h.should_checkpoint now).snd.epoch = h.epoch ∧
    (h.should_checkpoint now).snd.chunk = h.chunk ∧
    (h.should_checkpoint now).snd.checkpoint_every = h.checkpoint_every ∧
    (h.should_checkpoint now).snd.max_runtime = h.max_runtime ∧
    ((h.should_checkpoint now).snd.last_check_time =
      if h.checkpoint_every < now - h.last_check_time then now
      else h.last_check_time) ∧
    (¬ h.checkpoint_every < now - h.last_check_time →
      (h.should_checkpoint now).fst = false ∧ (h.should_checkpoint now).snd = h) := by
  refine ⟨?_, ?_, ?_, ?_, ?_, ?_, ?_, ?_, ?_⟩
  · rw [should_checkpoint_snd]
  · rw [should_checkpoint_snd]
  · rw [should_checkpoint_snd]
  · rw [should_checkpoint_snd]
  · rw [should_checkpoint_snd]
  · rw [should_checkpoint_snd]
  · rw [should_checkpoint_snd]
  · rw [should_checkpoint_snd]
  · intro hno
    constructor
    · rw [should_checkpoint_fst, decide_eq_false hno, Bool.false_and]
    · rw [should_checkpoint_snd, if_neg hno]

/-- C8 witness: the frame conditions at a concrete handler polled 1 second
after construction, where the interval has not elapsed. -/
theorem should_checkpoint_state_footprint_witness :
    ((CheckpointHandler.init "exp" 2 4 "ckpt" 0).should_checkpoint 1).fst = false ∧
    ((CheckpointHandler.init "exp" 2 4 "ckpt" 0).should_checkpoint 1).snd =
      CheckpointHandler.init "exp" 2 4 "ckpt" 0 :=
  (should_checkpoint_state_footprint (CheckpointHandler.init "exp" 2 4 "ckpt" 0)
      1).2.2.2.2.2.2.2.2 (by norm_num [CheckpointHandler.init])

/-- C1: round-trip persistence — after `save_checkpoint`, a `load_checkpoint`
on any handler with the same experiment name and checkpoint directory returns
exactly the saved model state, optimizer state and logs, and sets that
handler's in-memory epoch and chunk to the saved position. -/
theorem save_load_roundtrip {M O : Type} (h h' : CheckpointHandler)
    (m : M) (o : O) (l : Logs) (fs : FileSystem M O)
    (hname : h'.experiment_name = h.experiment_name)
    (hdir : h'.checkpoint_dir = h.checkpoint_dir) :
    h'.load_checkpoint (h.save_checkpoint m o l fs) =
      ((some m, some o, l), { h' with epoch := h.epoch, chunk := h.chunk }) := by
  have hpath : h'.checkpoint_path = h.checkpoint_path := by
    rw [CheckpointHandler.checkpoint_path, CheckpointHandler.checkpoint_path,
      hname, hdir]
  simp [CheckpointHandler.load_checkpoint, CheckpointHandler.save_checkpoint,
    hpath, List.lookup]

/-- C1 witness: a concrete save/load round trip at position (3, 40) with
model blob 5 and optimizer blob 7. -/
theorem save_load_roundtrip_witness :
    ((CheckpointHandler.init "exp" 2 4 "ckpt" 0).update 3 40).load_checkpoint
        (((CheckpointHandler.init "exp" 2 4 "ckpt" 0).update 3 40).save_checkpoint
          (5 : ℕ) (7 : ℕ) initialize_logs []) =
      ((some 5, some 7, initialize_logs),
        (CheckpointHandler.init "exp" 2 4 "ckpt" 0).update 3 40) :=
  save_load_roundtrip _ _ 5 7 initialize_logs [] rfl rfl

/-- The accumulated effect of a sequence of `update` calls: position becomes
the last update's arguments, every other field is untouched. -/
theorem applyUpdates_eq (h : CheckpointHandler) (us : List (ℕ × ℕ)) :
    applyUpdates h us =
      { h with epoch := (us.getLast?.getD (h.epoch, h.chunk)).fst,
               chunk := (us.getLast?.getD (h.epoch, h.chunk)).snd } := by
  induction us using List.reverseRecOn with
  | nil => simp [applyUpdates]
  | append_singleton us u ih =>
    rw [applyUpdates, List.foldl_append]
    simp only [List.foldl_cons, List.foldl_nil]
    rw [← applyUpdates, ih, List.getLast?_concat]
    simp [CheckpointHandler.update]

/-- C4: no stale position — after any sequence of `update(epoch, chunk)`
calls on a fresh handler followed by `save_checkpoint`, the persisted
record's epoch and chunk equal the last update's arguments, and (0, 0) when
no update was made. -/
theorem update_then_save_position {M O : Type} (h : CheckpointHandler)
    (hep : h.epoch = 0) (hch : h.chunk = 0) (us : List (ℕ × ℕ))
    (m : M) (o : O) (l : Logs) (fs : FileSystem M O) :
    ∃ rec : CheckpointRecord M O,
      ((applyUpdates h us).save_checkpoint m o l fs).lookup
          (applyUpdates h us).checkpoint_path = some rec ∧
      rec.epoch = (us.getLast?.getD (0, 0)).fst ∧
      rec.chunk = (us.getLast?.getD (0, 0)).snd := by
  refine ⟨{ epoch := (applyUpdates h us).epoch, chunk := (applyUpdates h us).chunk,
            model_state_dict := m, optimizer_state_dict := o, logs := l },
    ?_, ?_, ?_⟩
  · simp [CheckpointHandler.save_checkpoint, List.lookup]
  · rw [applyUpdates_eq]
    simp [hep, hch]
  · rw [applyUpdates_eq]
    simp [hep, hch]

/-- C4 witness: after updates to (1, 2) and then (3, 40), the saved record
holds position (3, 40). -/
theorem update_then_save_position_witness :
    ∃ rec : CheckpointRecord ℕ ℕ,
      ((applyUpdates (CheckpointHandler.init "exp" 2 4 "ckpt" 0)
            [(1, 2), (3, 40)]).save_checkpoint 5 7 initialize_logs []).lookup
          (applyUpdates (CheckpointHandler.init "exp" 2 4 "ckpt" 0)
            [(1, 2), (3, 40)]).checkpoint_path = some rec ∧
      rec.epoch = 3 ∧ rec.chunk = 40 := by
  obtain ⟨rec, h1, h2, h3⟩ :=
    update_then_save_position (CheckpointHandler.init "exp" 2 4 "ckpt" 0)
      rfl rfl [(1, 2), (3, 40)] 5 7 initialize_logs []
  exact ⟨rec, h1, h2, h3⟩

/-- C6 counterexample: a handler whose position was updated to (3, 40) and
whose checkpoint file is absent keeps position (3, 40) after
`load_checkpoint` — the claimed "epoch 0, chunk 0" fails for it. -/
theorem load_checkpoint_absent_counterexample :
    ((((CheckpointHandler.init "exp" 2 4 "ckpt" 0).update 3 40).load_checkpoint
        ([] : FileSystem ℕ ℕ)).snd.epoch = 3) ∧ (3 : ℕ) ≠ 0 :=
  ⟨rfl, by decide⟩

/-- C6 (amended): on an absent checkpoint file, `load_checkpoint` succeeds,
returns no model state and no optimizer state together with the logs
dictionary holding exactly the seven known metric keys each mapped to an
empty list, and leaves the handler's position unchanged — in particular a
freshly constructed handler stays at epoch 0, chunk 0. -/
theorem load_checkpoint_absent {M O : Type} (h : CheckpointHandler)
    (fs : FileSystem M O) (habs : fs.lookup h.checkpoint_path = none) :
    h.load_checkpoint fs =
      ((none, none,
        [("train_loss", []), ("train_loss_X", []), ("train_loss_X_epoch", []),
         ("runtime_per_250_batches", []), ("l0_norm", []), ("l0_norm_X", []),
         ("l0_norm_X_epoch", [])]), h) := by
  simp [CheckpointHandler.load_checkpoint, habs, initialize_logs]

/-- C6 witness: a freshly constructed handler with an empty file system:
`load_checkpoint` returns the fresh logs and the handler still has position
(0, 0). -/
theorem load_checkpoint_absent_witness :
    (CheckpointHandler.init "exp" 2 4 "ckpt" 0).load_checkpoint
        ([] : FileSystem ℕ ℕ) =
      ((none, none,
        [("train_loss", []), ("train_loss_X", []), ("train_loss_X_epoch", []),
         ("runtime_per_250_batches", []), ("l0_norm", []), ("l0_norm_X", []),
         ("l0_norm_X_epoch", [])]), CheckpointHandler.init "exp" 2 4 "ckpt" 0) ∧
    (CheckpointHandler.init "exp" 2 4 "ckpt" 0).epoch = 0 ∧
    (CheckpointHandler.init "exp" 2 4 "ckpt" 0).chunk = 0 :=
  ⟨load_checkpoint_absent _ _ rfl, rfl, rfl⟩

/-- C3: DRR gradient modification — after one `modify_grads` call, every
parameter whose gradient is absent is left untouched, and every parameter
with value `w` and gradient `g` has its gradient become exactly
`g + alpha * beta * sign(w) * exp(-beta * |w|)` elementwise, its value
unchanged; no parameter is added or dropped. -/
theorem modify_grads_spec (alpha beta : ℝ) (ps : List TorchParam) (i : ℕ)
    (p : TorchParam) (hp : ps.get? i = some p) :
    (modify_grads alpha beta ps).length = ps.length ∧
    (p.grad = none → (modify_grads alpha beta ps).get? i = some p) ∧
    (∀ g, p.grad = some g →
      (modify_grads alpha beta ps).get? i = some
        { data := p.data,
          grad := some (List.zipWith
            (fun gi wi => gi + alpha * beta * Real.sign wi *
              Real.exp (-(beta * |wi|))) g p.data) }) := by
  refine ⟨by simp [modify_grads], ?_, ?_⟩
  · intro hnone
    rw [modify_grads, List.get?_map, hp]
    simp [modify_grad, hnone]
  · intro g hg
    rw [modify_grads, List.get?_map, hp]
    simp [modify_grad, hg]

/-- C3 witness: a two-parameter model where the first parameter has no
gradient (left untouched) and the second, with value 2 and gradient 3,
receives the exact DRR correction with alpha = beta = 1. -/
theorem modify_grads_spec_witness :
    (modify_grads 1 1 [⟨[0], none⟩, ⟨[2], some [3]⟩]).get? 0 =
      some ⟨[0], none⟩ ∧
    (modify_grads 1 1 [⟨[0], none⟩, ⟨[2], some [3]⟩]).get? 1 =
      some ⟨[2], some [3 + 1 * 1 * Real.sign 2 * Real.exp (-(1 * |(2 : ℝ)|))]⟩ :=
  ⟨(modify_grads_spec 1 1 [⟨[0], none⟩, ⟨[2], some [3]⟩] 0 ⟨[0], none⟩ rfl).2.1 rfl,
   (modify_grads_spec 1 1 [⟨[0], none⟩, ⟨[2], some [3]⟩] 1 ⟨[2], some [3]⟩ rfl).2.2
     [3] rfl⟩

/-- C7 counterexample: `DrrTrainer` construction with a non-numeric `alpha`
(a string) and a float `beta` succeeds — no failure happens at construction,
the bad `alpha` is stored as-is. -/
theorem drr_init_counterexample :
    ∃ t : DrrTrainer,
      DrrTrainer.init
          [("alpha", PyVal.pyStr "not a number"), ("beta", PyVal.pyFloat 1)] =
        Except.ok t ∧ t.alpha = PyVal.pyStr "not a number" :=
  ⟨_, rfl, rfl⟩

/-- C7 (amended): `DrrTrainer` construction fails fast exactly on `beta`: a
missing `beta` raises KeyError, a `beta` that is not a float fails the
assertion; a missing `alpha` raises KeyError, but a present `alpha` of any
type — including a non-numeric one — is accepted at construction without
validation. -/
theorem drr_init_validation (args : List (String × PyVal)) :
    (args.lookup "beta" = none →
      DrrTrainer.init args = Except.error "KeyError: beta") ∧
    (∀ b, args.lookup "beta" = some b → (∀ q, b ≠ PyVal.pyFloat q) →
      DrrTrainer.init args = Except.error "beta must be a float") ∧
    (∀ q, args.lookup "beta" = some (PyVal.pyFloat q) →
      args.lookup "alpha" = none →
      DrrTrainer.init args = Except.error "KeyError: alpha") ∧
    (∀ q a, args.lookup "beta" = some (PyVal.pyFloat q) →
      args.lookup "alpha" = some a →
      DrrTrainer.init args =
        Except.ok { args := args, alpha := a, beta := PyVal.pyFloat q }) := by
  refine ⟨?_, ?_, ?_, ?_⟩
  · intro hb
    simp [DrrTrainer.init, hb]
  · intro b hb hnf
    cases b with
    | pyFloat q => exact absurd rfl (hnf q)
    | pyInt n => simp [DrrTrainer.init, hb]
    | pyStr s => simp [DrrTrainer.init, hb]
    | pyNone => simp [DrrTrainer.init, hb]
  · intro q hb ha
    simp [DrrTrainer.init, hb, ha]
  · intro q a hb ha
    simp [DrrTrainer.init, hb, ha]

/-- C7 witness: an int-valued `alpha` together with a float `beta` is
accepted at construction with `alpha` stored unvalidated. -/
theorem drr_init_validation_witness :
    DrrTrainer.init [("alpha", PyVal.pyInt 2), ("beta", PyVal.pyFloat 1)] =
      Except.ok
        { args := [("alpha", PyVal.pyInt 2), ("beta", PyVal.pyFloat 1)],
          alpha := PyVal.pyInt 2, beta := PyVal.pyFloat 1 } :=
  (drr_init_validation [("alpha", PyVal.pyInt 2), ("beta", PyVal.pyFloat 1)]).2.2.2
    1 (PyVal.pyInt 2) rfl rfl

/-- C5: `get_subset` contract — on a nonempty dataset whose chunks all have
length `L > 0`, `get_subset 0 (2*L)` returns the dataset of the first two
chunks in original order (with the same split); and `get_subset` is rejected
with a diagnostic naming the failed constraint whenever the start offset is
not a multiple of `L`, the end offset is not a multiple of `L`, or start ≥
end. -/
theorem get_subset_contract (L : ℕ) (ds : ByteWikipediaDataset) (hL : 0 < L)
    (hne : ds.data ≠ []) (hlen : ∀ c ∈ ds.data, c.length = L) :
    (get_subset 0 (2 * L) ds =
      Except.ok { data := ds.data.take 2, split := ds.split }) ∧
    (∀ s e, ¬ s % L = 0 →
      get_subset s e ds =
        Except.error ("Start token must be a multiple of the sequence length "
          ++ toString L)) ∧
    (∀ s e, s % L = 0 → ¬ e % L = 0 →
      get_subset s e ds =
        Except.error ("End token must be a multiple of the sequence length "
          ++ toString L)) ∧
    (∀ s e, s % L = 0 → e % L = 0 → e ≤ s →
      get_subset s e ds =
        Except.error "Start token must be smaller than end token") := by
  obtain ⟨c0, rest, hd⟩ : ∃ c0 rest, ds.data = c0 :: rest := by
    cases hds : ds.data with
    | nil => exact absurd hds hne
    | cons a l => exact ⟨a, l, rfl⟩
  have hc0 : c0.length = L := hlen c0 (hd ▸ List.mem_cons_self c0 rest)
  have hLne : ¬ L = 0 := Nat.pos_iff_ne_zero.mp hL
  refine ⟨?_, ?_, ?_, ?_⟩
  · have h2L : 2 * L % L = 0 := Nat.mul_mod_left 2 L
    have h2Ldiv : 2 * L / L = 2 := Nat.mul_div_left 2 hL
    have hpos : 0 < 2 * L := by omega
    simp [get_subset, hd, hc0, hLne, h2L, hpos, h2Ldiv]
  · intro s e hs
    simp [get_subset, hd, hc0, hLne, hs]
  · intro s e hs he
    simp [get_subset, hd, hc0, hLne, hs, he]
  · intro s e hs he hse
    simp [get_subset, hd, hc0, hLne, hs, he, Nat.not_lt.mpr hse]

/-- C5 witness: on a three-chunk dataset with chunk length 2, the aligned
request (0, 4) yields the first two chunks, the unaligned start 1 and the
reversed request (4, 0) are rejected with their respective diagnostics. -/
theorem get_subset_contract_witness :
    get_subset 0 4 ⟨[[1, 2], [3, 4], [5, 6]], "train"⟩ =
      Except.ok ⟨[[1, 2], [3, 4]], "train"⟩ ∧
    get_subset 1 4 ⟨[[1, 2], [3, 4], [5, 6]], "train"⟩ =
      Except.error ("Start token must be a multiple of the sequence length "
        ++ toString 2) ∧
    get_subset 4 0 ⟨[[1, 2], [3, 4], [5, 6]], "train"⟩ =
      Except.error "Start token must be smaller than end token" := by
  have h := get_subset_contract 2 ⟨[[1, 2], [3, 4], [5, 6]], "train"⟩
    (by decide) (by decide) (by decide)
  exact ⟨h.1, h.2.1 1 4 (by decide), h.2.2.2 4 0 (by decide) (by decide) (by decide)⟩

/-- C10: `get_subset` does not mutate its input — on every successful call,
every object already on the heap (in particular the argument dataset, its
`data` list and all its chunks) is unchanged, and the result is a freshly
allocated object holding the selected chunks. -/
theorem get_subset_no_mutation (heap : List ByteWikipediaDataset) (i s e : ℕ)
    (hp : List ByteWikipediaDataset) (j : ℕ)
    (hok : get_subset_heap heap i s e = Except.ok (hp, j)) :
    (∀ a, a < heap.length → hp.get? a = heap.get? a) ∧
    j = heap.length ∧
    (i < heap.length → j ≠ i) ∧
    (∃ ds sub, heap.get? i = some ds ∧ get_subset s e ds = Except.ok sub ∧
      hp.get? j = some sub) := by
  cases hi : heap.get? i with
  | none =>
    simp only [get_subset_heap] at hok
    rw [hi] at hok
    simp at hok
  | some ds =>
    cases hsub : get_subset s e ds with
    | error msg =>
      simp only [get_subset_heap] at hok
      rw [hi] at hok
      simp [hsub] at hok
    | ok sub =>
      simp only [get_subset_heap] at hok
      rw [hi] at hok
      have hpair : heap ++ [sub] = hp ∧ heap.length = j := by
        simpa [hsub] using hok
      obtain ⟨hhp, hj⟩ := hpair
      subst hhp
      subst hj
      refine ⟨?_, rfl, ?_, ds, sub, rfl, hsub, ?_⟩
      · intro a ha
        exact List.get?_append ha
      · intro hilt
        exact Nat.ne_of_gt hilt
      · exact List.get?_concat_length heap sub

/-- C10 witness: slicing the first two chunks out of a concrete dataset
leaves the original heap object intact and allocates the subset at a fresh
address. -/
theorem get_subset_no_mutation_witness :
    ([⟨[[1, 2], [3, 4], [5, 6]], "train"⟩, ⟨[[1, 2], [3, 4]], "train"⟩] :
        List ByteWikipediaDataset).get? 0 =
      ([⟨[[1, 2], [3, 4], [5, 6]], "train"⟩] :
        List ByteWikipediaDataset).get? 0 ∧
    (1 : ℕ) = ([⟨[[1, 2], [3, 4], [5, 6]], "train"⟩] :
        List ByteWikipediaDataset).length := by
  have h := get_subset_no_mutation [⟨[[1, 2], [3, 4], [5, 6]], "train"⟩] 0 0 4
    [⟨[[1, 2], [3, 4], [5, 6]], "train"⟩, ⟨[[1, 2], [3, 4]], "train"⟩] 1 rfl
  exact ⟨h.1 0 (by decide), h.2.1.symm⟩

theorem splitChunksFuel_chunk_length : ∀ (fuel L : ℕ) (b : List ℕ),
    ∀ c ∈ (splitChunksFuel fuel L b).fst, c.length = L := by
  intro fuel
  induction fuel with
  | zero => intro L b c hc; simp [splitChunksFuel] at hc
  | succ n ih =>
    intro L b c hc
    simp only [splitChunksFuel] at hc
    by_cases hg : 0 < L ∧ L ≤ b.length
    · rw [if_pos hg] at hc
      rcases List.mem_cons.mp hc with rfl | hc'
      · rw [List.length_take]
        omega
      · exact ih L (b.drop L) c hc'
    · rw [if_neg hg] at hc
      simp at hc

theorem processFold_chunk_length (L : ℕ) :
    ∀ (texts : List (List ℕ)) (st : List (List ℕ) × List ℕ),
    (∀ c ∈ st.fst, c.length = L) →
    ∀ c ∈ (texts.foldl (processStep L) st).fst, c.length = L := by
  intro texts
  induction texts with
  | nil => intro st hst c hc; exact hst c hc
  | cons t ts ih =>
    intro st hst c hc
    rw [List.foldl_cons] at hc
    refine ih (processStep L st t) ?_ c hc
    intro d hd
    simp only [processStep] at hd
    rcases List.mem_append.mp hd with hd1 | hd2
    · exact hst d hd1
    · rw [splitChunks] at hd2
      exact splitChunksFuel_chunk_length _ L _ d hd2

theorem processSplit_chunk_length (L : ℕ) (hL : 0 < L)
    (texts : List (List ℕ)) : ∀ c ∈ processSplit L texts, c.length = L := by
  intro c hc
  simp only [processSplit] at hc
  by_cases hempty : (texts.foldl (processStep L) ([], [])).snd = []
  · rw [if_pos hempty] at hc
    exact processFold_chunk_length L texts ([], []) (by simp) c hc
  · rw [if_neg hempty] at hc
    rcases List.mem_append.mp hc with hc1 | hc2
    · exact processFold_chunk_length L texts ([], []) (by simp) c hc1
    · rw [List.mem_singleton] at hc2
      subst hc2
      by_cases hshort : (texts.foldl (processStep L) ([], [])).snd.length < L
      · rw [if_pos hshort, List.length_take, List.length_append,
          List.length_replicate]
        omega
      · rw [if_neg hshort, List.length_take]
        omega

/-- C9: fixed-length chunk invariant — for `sequence_length > 0`, every chunk
stored by `create_and_save_dataset` in every split has length exactly
`sequence_length` (the trailing partial chunk having been right-padded with
zero bytes), hence every item `__getitem__` returns has length exactly
`sequence_length`. -/
theorem create_dataset_chunk_invariant (L : ℕ) (hL : 0 < L)
    (train_texts validation_texts test_texts : List (List ℕ)) :
    ∀ ds ∈ [(create_and_save_dataset L train_texts validation_texts test_texts).train,
            (create_and_save_dataset L train_texts validation_texts test_texts).validation,
            (create_and_save_dataset L train_texts validation_texts test_texts).test],
      (∀ c ∈ ds.data, c.length = L) ∧
      (∀ idx t, ds.getitem idx = some t → t.length = L) := by
  intro ds hds
  have hdata : ∀ c ∈ ds.data, c.length = L := by
    simp only [create_and_save_dataset, List.mem_cons, List.mem_singleton,
      List.not_mem_nil, or_false] at hds
    rcases hds with rfl | rfl | rfl
    · exact processSplit_chunk_length L hL train_texts
    · exact processSplit_chunk_length L hL validation_texts
    · exact processSplit_chunk_length L hL test_texts
  refine ⟨hdata, ?_⟩
  intro idx t ht
  rw [ByteWikipediaDataset.getitem] at ht
  exact hdata t (List.get?_mem ht)

/-- C9 witness: with sequence length 2 and the single train text of bytes
1, 2, 3, the stored chunks are the full chunk (1, 2) and the zero-padded
trailing chunk (3, 0), both of length 2. -/
theorem create_dataset_chunk_invariant_witness :
    (create_and_save_dataset 2 [[1, 2, 3]] [] []).train.data = [[1, 2], [3, 0]] ∧
    ([3, 0] : List ℕ).length = 2 := by
  have h := create_dataset_chunk_invariant 2 (by decide) [[1, 2, 3]] [] []
  exact ⟨by decide,
    (h (create_and_save_dataset 2 [[1, 2, 3]] [] []).train (by simp)).1
      [3, 0] (by decide)⟩

end CompressingTransformers
